import Mathlib

/-!
Shallow embedding of the MeshMetrics metrics engine
(src/lib/meme/meme.cpp) over the reals, with the theorems that settle
the specification claims.

Doubles are modelled as real numbers.  The C++ constant
std::numeric_limits<double>::max() is modelled exactly as the real
number (2 - 2^-52) * 2^1023 = 2^1024 - 2^971.  Eigen matrices are
modelled as a shape (rows, cols) together with a total entry function;
out-of-range reads, which are undefined behaviour in the source, simply
read the total function.
-/

/-- The single structured error of the engine: the triangle index table
has a column count different from 3. -/
inductive MemeError where
  | invalidTopology
deriving DecidableEq

/-- Eigen MatrixXd: a real matrix given by its shape and entries. -/
structure MatrixXd where
  rows : ℕ
  cols : ℕ
  entry : ℕ → ℕ → ℝ

/-- Eigen MatrixXi, used for the triangle index table: entries are
vertex indices. -/
structure MatrixXi where
  rows : ℕ
  cols : ℕ
  entry : ℕ → ℕ → ℕ

/-- Componentwise difference of two 3-d points (Eigen vector subtraction). -/
def sub3 (u v : ℝ × ℝ × ℝ) : ℝ × ℝ × ℝ :=
  (u.1 - v.1, u.2.1 - v.2.1, u.2.2 - v.2.2)

/-- Eigen .norm() of a 3-d vector: the Euclidean norm. -/
noncomputable def norm3 (v : ℝ × ℝ × ℝ) : ℝ :=
  Real.sqrt (v.1 * v.1 + v.2.1 * v.2.1 + v.2.2 * v.2.2)

/-- std::numeric_limits<double>::max(), modelled exactly. -/
noncomputable def dblMax : ℝ := 2 ^ 1024 - 2 ^ 971

/-- V.row(i) as a 3-d point. -/
noncomputable def vrow (V : MatrixXd) (i : ℕ) : ℝ × ℝ × ℝ :=
  (V.entry i 0, V.entry i 1, V.entry i 2)

/-- The clamped arccos argument of law_of_cosines:
std::clamp((b*b + c*c - a*a) / (2*b*c), -1.0, 1.0). -/
noncomputable def loc_arg (a b c : ℝ) : ℝ :=
  min 1 (max (-1) ((b * b + c * c - a * a) / (2 * b * c)))

/-- law_of_cosines from meme.cpp: the interior angle opposite side a,
in degrees. -/
noncomputable def law_of_cosines (a b c : ℝ) : ℝ :=
  Real.arccos (loc_arg a b c) * (180 / Real.pi)

/-- Semi-perimeter s = (a + b + c) * 0.5. -/
noncomputable def heron_s (a b c : ℝ) : ℝ := (a + b + c) * 0.5

/-- The clamped Heron radicand:
std::clamp(s*(s-a)*(s-b)*(s-c), 0.0, std::numeric_limits<double>::max()). -/
noncomputable def heron_clamped (a b c : ℝ) : ℝ :=
  min dblMax (max 0
    (heron_s a b c * (heron_s a b c - a) * (heron_s a b c - b) * (heron_s a b c - c)))

/-- Triangle area by the Heron formula as computed in the source. -/
noncomputable def heron_area (a b c : ℝ) : ℝ :=
  Real.sqrt (heron_clamped a b c)

/-- Edge length a = (v1 - v0).norm() of triangle i. -/
noncomputable def tri_a (V : MatrixXd) (F : MatrixXi) (i : ℕ) : ℝ :=
  norm3 (sub3 (vrow V (F.entry i 1)) (vrow V (F.entry i 0)))

/-- Edge length b = (v2 - v1).norm() of triangle i. -/
noncomputable def tri_b (V : MatrixXd) (F : MatrixXi) (i : ℕ) : ℝ :=
  norm3 (sub3 (vrow V (F.entry i 2)) (vrow V (F.entry i 1)))

/-- Edge length c = (v0 - v2).norm() of triangle i. -/
noncomputable def tri_c (V : MatrixXd) (F : MatrixXi) (i : ℕ) : ℝ :=
  norm3 (sub3 (vrow V (F.entry i 0)) (vrow V (F.entry i 2)))

/-- The zero-edge guard condition of the source loop. -/
noncomputable def zeroEdgeTri (V : MatrixXd) (F : MatrixXi) (i : ℕ) : Prop :=
  tri_a V F i = 0 ∨ tri_b V F i = 0 ∨ tri_c V F i = 0

noncomputable instance (V : MatrixXd) (F : MatrixXi) (i : ℕ) :
    Decidable (zeroEdgeTri V F i) := by
  unfold zeroEdgeTri; infer_instance

/-- The minimum of the three law-of-cosines angles of triangle i. -/
noncomputable def tri_min_angle (V : MatrixXd) (F : MatrixXi) (i : ℕ) : ℝ :=
  min (law_of_cosines (tri_a V F i) (tri_b V F i) (tri_c V F i))
    (min (law_of_cosines (tri_b V F i) (tri_a V F i) (tri_c V F i))
      (law_of_cosines (tri_c V F i) (tri_a V F i) (tri_b V F i)))

/-- The maximum of the three law-of-cosines angles of triangle i. -/
noncomputable def tri_max_angle (V : MatrixXd) (F : MatrixXi) (i : ℕ) : ℝ :=
  max (law_of_cosines (tri_a V F i) (tri_b V F i) (tri_c V F i))
    (max (law_of_cosines (tri_b V F i) (tri_a V F i) (tri_c V F i))
      (law_of_cosines (tri_c V F i) (tri_a V F i) (tri_b V F i)))

/-- Semi-perimeter of triangle i. -/
noncomputable def tri_s (V : MatrixXd) (F : MatrixXi) (i : ℕ) : ℝ :=
  heron_s (tri_a V F i) (tri_b V F i) (tri_c V F i)

/-- Heron area of triangle i. -/
noncomputable def tri_area (V : MatrixXd) (F : MatrixXi) (i : ℕ) : ℝ :=
  heron_area (tri_a V F i) (tri_b V F i) (tri_c V F i)

/-- The zero-area guard condition of the source loop. -/
noncomputable def zeroAreaTri (V : MatrixXd) (F : MatrixXi) (i : ℕ) : Prop :=
  tri_area V F i = 0 ∨ tri_s V F i = 0

noncomputable instance (V : MatrixXd) (F : MatrixXi) (i : ℕ) :
    Decidable (zeroAreaTri V F i) := by
  unfold zeroAreaTri; infer_instance

/-- inradius = area / s. -/
noncomputable def tri_inradius (V : MatrixXd) (F : MatrixXi) (i : ℕ) : ℝ :=
  tri_area V F i / tri_s V F i

/-- circumradius = (a * b * c) / (4 * area). -/
noncomputable def tri_circumradius (V : MatrixXd) (F : MatrixXi) (i : ℕ) : ℝ :=
  (tri_a V F i * tri_b V F i * tri_c V F i) / (4 * tri_area V F i)

/-- radius_ratio = 2 * inradius / circumradius. -/
noncomputable def tri_ratio (V : MatrixXd) (F : MatrixXi) (i : ℕ) : ℝ :=
  2 * tri_inradius V F i / tri_circumradius V F i

/-- shape_quality = (4 * sqrt(3) * area) / (a*a + b*b + c*c). -/
noncomputable def tri_shape (V : MatrixXd) (F : MatrixXi) (i : ℕ) : ℝ :=
  (4 * Real.sqrt 3 * tri_area V F i) /
    (tri_a V F i * tri_a V F i + tri_b V F i * tri_b V F i + tri_c V F i * tri_c V F i)

/-- The 19 aggregate metrics of get_metrics, as a record with the field
names of the Metrics enum. -/
structure Metrics where
  min_min_angle : ℝ
  max_min_angle : ℝ
  avg_min_angle : ℝ
  min_max_angle : ℝ
  max_max_angle : ℝ
  avg_max_angle : ℝ
  min_ratio : ℝ
  max_ratio : ℝ
  avg_ratio : ℝ
  min_shape : ℝ
  max_shape : ℝ
  avg_shape : ℝ
  min_edge : ℝ
  max_edge : ℝ
  avg_edge : ℝ
  num_f : ℝ
  num_v : ℝ
  has_zero_area : ℝ
  has_zero_edge : ℝ

/-- The pre-loop initialization of get_metrics: everything 0, the five
min fields at std::numeric_limits<double>::max(), the two counts set. -/
noncomputable def metrics_init (V : MatrixXd) (F : MatrixXi) : Metrics where
  min_min_angle := dblMax
  max_min_angle := 0
  avg_min_angle := 0
  min_max_angle := dblMax
  max_max_angle := 0
  avg_max_angle := 0
  min_ratio := dblMax
  max_ratio := 0
  avg_ratio := 0
  min_shape := dblMax
  max_shape := 0
  avg_shape := 0
  min_edge := dblMax
  max_edge := 0
  avg_edge := 0
  num_f := (F.rows : ℝ)
  num_v := (V.rows : ℝ)
  has_zero_area := 0
  has_zero_edge := 0

/-- One iteration of the get_metrics triangle loop.  The two `continue`
statements of the source become the two early-returning branches. -/
noncomputable def metrics_step (V : MatrixXd) (F : MatrixXi) (m : Metrics) (i : ℕ) :
    Metrics :=
  if zeroEdgeTri V F i then
    { m with has_zero_edge := 1 }
  else
    let m1 : Metrics :=
      { m with
        min_min_angle := min m.min_min_angle (tri_min_angle V F i)
        max_min_angle := max m.max_min_angle (tri_min_angle V F i)
        avg_min_angle := m.avg_min_angle + tri_min_angle V F i
        min_max_angle := min m.min_max_angle (tri_max_angle V F i)
        max_max_angle := max m.max_max_angle (tri_max_angle V F i)
        avg_max_angle := m.avg_max_angle + tri_max_angle V F i }
    if zeroAreaTri V F i then
      { m1 with has_zero_area := 1 }
    else
      { m1 with
        min_ratio := min m1.min_ratio (tri_ratio V F i)
        max_ratio := max m1.max_ratio (tri_ratio V F i)
        avg_ratio := m1.avg_ratio + tri_ratio V F i
        min_shape := min m1.min_shape (tri_shape V F i)
        max_shape := max m1.max_shape (tri_shape V F i)
        avg_shape := m1.avg_shape + tri_shape V F i
        min_edge := min m1.min_edge (min (tri_a V F i) (min (tri_b V F i) (tri_c V F i)))
        max_edge := max m1.max_edge (max (tri_a V F i) (max (tri_b V F i) (tri_c V F i)))
        avg_edge := m1.avg_edge + (tri_a V F i + tri_b V F i + tri_c V F i) }

/-- The state after the whole triangle loop. -/
noncomputable def metrics_loop (V : MatrixXd) (F : MatrixXi) : Metrics :=
  (List.range F.rows).foldl (metrics_step V F) (metrics_init V F)

/-- V.colwise().maxCoeff() for column j (meaningful when V has at least
one row, as Eigen requires). -/
noncomputable def colMax (V : MatrixXd) (j : ℕ) : ℝ :=
  (List.range V.rows).foldl (fun acc i => max acc (V.entry i j)) (V.entry 0 j)

/-- V.colwise().minCoeff() for column j. -/
noncomputable def colMin (V : MatrixXd) (j : ℕ) : ℝ :=
  (List.range V.rows).foldl (fun acc i => min acc (V.entry i j)) (V.entry 0 j)

/-- The bounding-box diagonal length (bbox_max - bbox_min).norm(). -/
noncomputable def bbox_diag (V : MatrixXd) : ℝ :=
  norm3 (colMax V 0 - colMin V 0, colMax V 1 - colMin V 1, colMax V 2 - colMin V 2)

/-- The post-loop normalization of get_metrics: mean fields divided by
the triangle count (avg_edge by 3x the count), then the three edge
fields divided by the bounding-box diagonal. -/
noncomputable def metrics_finalize (V : MatrixXd) (F : MatrixXi) (m : Metrics) :
    Metrics :=
  let m1 : Metrics :=
    { m with
      avg_min_angle := m.avg_min_angle / (F.rows : ℝ)
      avg_max_angle := m.avg_max_angle / (F.rows : ℝ)
      avg_ratio := m.avg_ratio / (F.rows : ℝ)
      avg_shape := m.avg_shape / (F.rows : ℝ)
      avg_edge := m.avg_edge / ((F.rows * 3 : ℕ) : ℝ) }
  { m1 with
    min_edge := m1.min_edge / bbox_diag V
    max_edge := m1.max_edge / bbox_diag V
    avg_edge := m1.avg_edge / bbox_diag V }

/-- The value computed by get_metrics after the column check passed:
the early return on an empty triangle table skips both the loop and the
normalization. -/
noncomputable def get_metrics_val (V : MatrixXd) (F : MatrixXi) : Metrics :=
  if F.rows = 0 then metrics_init V F
  else metrics_finalize V F (metrics_loop V F)

/-- get_metrics from meme.cpp. -/
noncomputable def get_metrics (V : MatrixXd) (F : MatrixXi) :
    Except MemeError Metrics :=
  if F.cols ≠ 3 then Except.error MemeError.invalidTopology
  else Except.ok (get_metrics_val V F)

/-- The per-triangle matrix after metrics.fill(0) followed by
metrics.row(MetricsPerTri::max_angle).fill(180): the enumerator
max_angle equals 1, so the source fills ROW index 1 with 180 (for the
matrix to have a row 1 the triangle table needs at least two rows;
otherwise the source writes out of bounds, which the total entry
function absorbs). -/
noncomputable def per_tri_init : ℕ → ℕ → ℝ :=
  fun i _ => if i = 1 then 180 else 0

/-- Write one entry of a per-triangle matrix. -/
noncomputable def mat_update (M : ℕ → ℕ → ℝ) (r c : ℕ) (x : ℝ) : ℕ → ℕ → ℝ :=
  fun i j => if i = r ∧ j = c then x else M i j

/-- One iteration of the get_metrics_per_tri loop: columns 0 and 1
receive the min and max angle unless the zero-edge guard skips the
triangle, columns 2 and 3 receive ratio and shape unless either guard
skips it. -/
noncomputable def per_tri_step (V : MatrixXd) (F : MatrixXi) (M : ℕ → ℕ → ℝ)
    (i : ℕ) : ℕ → ℕ → ℝ :=
  if zeroEdgeTri V F i then M
  else
    let M1 := mat_update (mat_update M i 0 (tri_min_angle V F i)) i 1 (tri_max_angle V F i)
    if zeroAreaTri V F i then M1
    else mat_update (mat_update M1 i 2 (tri_ratio V F i)) i 3 (tri_shape V F i)

/-- get_metrics_per_tri from meme.cpp, the matrix given as its entry
function (row = triangle index, column = MetricsPerTri enumerator). -/
noncomputable def get_metrics_per_tri (V : MatrixXd) (F : MatrixXi) :
    Except MemeError (ℕ → ℕ → ℝ) :=
  if F.cols ≠ 3 then Except.error MemeError.invalidTopology
  else Except.ok ((List.range F.rows).foldl (per_tri_step V F) per_tri_init)

/-- An undirected vertex pair in canonical (sorted) form. -/
def sortPair (u v : ℕ) : ℕ × ℕ :=
  if u ≤ v then (u, v) else (v, u)

/-- The three undirected edges of every triangle, in triangle order. -/
def tri_edge_list (F : MatrixXi) : List (ℕ × ℕ) :=
  (List.range F.rows).flatMap fun i =>
    [sortPair (F.entry i 0) (F.entry i 1),
     sortPair (F.entry i 1) (F.entry i 2),
     sortPair (F.entry i 2) (F.entry i 0)]

/-- Modelled from the spec: igl::edges (an external libigl routine not
part of this repository) derives the unique undirected edge set implied
by the triangle table — each of the three edges per triangle,
deduplicated, so an edge shared by two triangles appears once; the
enumeration order is engine-defined. -/
def igl_edges (F : MatrixXi) : List (ℕ × ℕ) :=
  (tri_edge_list F).dedup

/-- get_relative_edge_lengths from meme.cpp: every unique edge length
(p1 - p0).norm() times the inverse bounding-box diagonal. -/
noncomputable def get_relative_edge_lengths (V : MatrixXd) (F : MatrixXi) :
    Except MemeError (List ℝ) :=
  if F.cols ≠ 3 then Except.error MemeError.invalidTopology
  else Except.ok ((igl_edges F).map fun e =>
    norm3 (sub3 (vrow V e.2) (vrow V e.1)) * (1 / bbox_diag V))

/-- Scaling every vertex coordinate by k. -/
def scaleV (k : ℝ) (V : MatrixXd) : MatrixXd :=
  ⟨V.rows, V.cols, fun i j => k * V.entry i j⟩

/-- A triangle contributes to the ratio, shape and edge reductions
exactly when both degeneracy guards pass. -/
noncomputable def contributesTri (V : MatrixXd) (F : MatrixXi) (i : ℕ) : Prop :=
  ¬zeroEdgeTri V F i ∧ ¬zeroAreaTri V F i

noncomputable instance (V : MatrixXd) (F : MatrixXi) (i : ℕ) :
    Decidable (contributesTri V F i) := by
  unfold contributesTri; infer_instance

/-- The edge lengths pooled into the edge-length reductions: the three
side lengths of every triangle that passes both guards. -/
noncomputable def contribEdges (V : MatrixXd) (F : MatrixXi) : List ℝ :=
  (List.range F.rows).flatMap fun i =>
    if contributesTri V F i then [tri_a V F i, tri_b V F i, tri_c V F i] else []

/-- The value of the min_edge accumulator at the end of the loop. -/
noncomputable def minContribEdge (V : MatrixXd) (F : MatrixXi) : ℝ :=
  (contribEdges V F).foldl min dblMax


/-! Concrete inputs used by witnesses and counterexamples. -/

/-- A single vertex at the origin. -/
def Vc1 : MatrixXd := ⟨1, 3, fun _ _ => 0⟩

/-- One triangle (0,0,0): all three corners coincide. -/
def Fc1 : MatrixXi := ⟨1, 3, fun _ _ => 0⟩

/-- An empty triangle table with 3 columns. -/
def Fc0 : MatrixXi := ⟨0, 3, fun _ _ => 0⟩

/-- A triangle table with 4 columns. -/
def Fc4 : MatrixXi := ⟨1, 4, fun _ _ => 0⟩

/-- Three collinear vertices (0,0,0), (1,0,0), (2,0,0). -/
def Vc2 : MatrixXd := ⟨3, 3, fun i j => if j = 0 then (i : ℝ) else 0⟩

/-- One triangle (0,1,2). -/
def Fc2 : MatrixXi := ⟨1, 3, fun _ j => j⟩

/-- Two vertices (0,0,0) and (1,0,0). -/
def Vc3 : MatrixXd := ⟨2, 3, fun i j => if i = 1 ∧ j = 0 then 1 else 0⟩

/-- One triangle (0,0,1): a zero-length edge between corners 0 and 1,
but the vertex set spans a nonzero bounding box. -/
def Fc3 : MatrixXi := ⟨1, 3, fun _ j => if j = 2 then 1 else 0⟩

/-! Basic facts about the modelled double maximum. -/

lemma dblMax_pos : 0 < dblMax := by
  have h : (2 : ℝ) ^ 971 < 2 ^ 1024 := by
    exact pow_lt_pow_right₀ one_lt_two (by norm_num)
  unfold dblMax
  linarith

lemma dblMax_nonneg : 0 ≤ dblMax := le_of_lt dblMax_pos

/-- C3: each of get_metrics, get_metrics_per_tri and
get_relative_edge_lengths raises the invalid-topology error (the only
error) exactly when the triangle index table's column count is not 3,
and returns normally exactly when it is 3, whatever the row count. -/
theorem C3_invalid_topology_iff (V : MatrixXd) (F : MatrixXi) :
    (get_metrics V F = Except.error MemeError.invalidTopology ↔ F.cols ≠ 3) ∧
    ((∃ m, get_metrics V F = Except.ok m) ↔ F.cols = 3) ∧
    (get_metrics_per_tri V F = Except.error MemeError.invalidTopology ↔ F.cols ≠ 3) ∧
    ((∃ M, get_metrics_per_tri V F = Except.ok M) ↔ F.cols = 3) ∧
    (get_relative_edge_lengths V F = Except.error MemeError.invalidTopology ↔ F.cols ≠ 3) ∧
    ((∃ L, get_relative_edge_lengths V F = Except.ok L) ↔ F.cols = 3) := by
  by_cases h : F.cols = 3 <;>
    simp [get_metrics, get_metrics_per_tri, get_relative_edge_lengths, h]

/-- C2: on a triangle table with 3 columns and 0 rows, get_metrics
returns the initialization record: num_f = 0, num_v = V.rows, every min
field at the double-max sentinel (the value the spec documents as the
plus-infinity identity of min), every max field 0 and every mean field 0. -/
theorem C2_empty_mesh (V : MatrixXd) (F : MatrixXi)
    (hc : F.cols = 3) (hr : F.rows = 0) :
    get_metrics V F = Except.ok (metrics_init V F) ∧
    (metrics_init V F).num_f = 0 ∧
    (metrics_init V F).num_v = (V.rows : ℝ) ∧
    (metrics_init V F).min_min_angle = dblMax ∧
    (metrics_init V F).min_max_angle = dblMax ∧
    (metrics_init V F).min_ratio = dblMax ∧
    (metrics_init V F).min_shape = dblMax ∧
    (metrics_init V F).min_edge = dblMax ∧
    (metrics_init V F).max_min_angle = 0 ∧
    (metrics_init V F).max_max_angle = 0 ∧
    (metrics_init V F).max_ratio = 0 ∧
    (metrics_init V F).max_shape = 0 ∧
    (metrics_init V F).max_edge = 0 ∧
    (metrics_init V F).avg_min_angle = 0 ∧
    (metrics_init V F).avg_max_angle = 0 ∧
    (metrics_init V F).avg_ratio = 0 ∧
    (metrics_init V F).avg_shape = 0 ∧
    (metrics_init V F).avg_edge = 0 := by
  refine ⟨?_, ?_, rfl, rfl, rfl, rfl, rfl, rfl, rfl, rfl, rfl, rfl, rfl,
    rfl, rfl, rfl, rfl, rfl⟩
  · simp [get_metrics, get_metrics_val, hc, hr]
  · simp [metrics_init, hr]

/-- Witness for C2 at a concrete empty mesh. -/
theorem C2_empty_mesh_witness :
    Fc0.cols = 3 ∧ Fc0.rows = 0 ∧
    get_metrics Vc1 Fc0 = Except.ok (metrics_init Vc1 Fc0) ∧
    (metrics_init Vc1 Fc0).min_edge = dblMax :=
  ⟨rfl, rfl, (C2_empty_mesh Vc1 Fc0 rfl rfl).1,
    (C2_empty_mesh Vc1 Fc0 rfl rfl).2.2.2.2.2.2.2.1⟩

/-- C9: for all positive edge lengths the arccos argument is clamped
into [-1, 1], the Heron radicand is clamped to be nonnegative before
the square root, and every computed angle lies in [0, 180] degrees. -/
theorem C9_clamping_bounds (a b c : ℝ)
    (ha : 0 < a) (hb : 0 < b) (hc : 0 < c) :
    (-1 ≤ loc_arg a b c ∧ loc_arg a b c ≤ 1) ∧
    0 ≤ heron_clamped a b c ∧
    (0 ≤ law_of_cosines a b c ∧ law_of_cosines a b c ≤ 180) := by
  refine ⟨⟨le_min (by norm_num) (le_max_left _ _), min_le_left _ _⟩,
    le_min dblMax_nonneg (le_max_left _ _), ?_, ?_⟩
  · exact mul_nonneg (Real.arccos_nonneg _) (by positivity)
  · have h1 : Real.arccos (loc_arg a b c) * (180 / Real.pi) ≤
        Real.pi * (180 / Real.pi) :=
      mul_le_mul_of_nonneg_right (Real.arccos_le_pi _) (by positivity)
    have h2 : Real.pi * (180 / Real.pi) = 180 := by
      rw [mul_comm, div_mul_cancel₀ _ Real.pi_ne_zero]
    unfold law_of_cosines
    linarith

/-- Witness for C9 at the unit equilateral side lengths. -/
theorem C9_clamping_bounds_witness :
    (0 : ℝ) < 1 ∧
    0 ≤ law_of_cosines 1 1 1 ∧ law_of_cosines 1 1 1 ≤ 180 :=
  ⟨by norm_num,
    (C9_clamping_bounds 1 1 1 (by norm_num) (by norm_num) (by norm_num)).2.2.1,
    (C9_clamping_bounds 1 1 1 (by norm_num) (by norm_num) (by norm_num)).2.2.2⟩

/-! Evaluation facts for the concrete meshes. -/

lemma sqrt_four : Real.sqrt 4 = 2 := by
  rw [show (4 : ℝ) = 2 ^ 2 by norm_num, Real.sqrt_sq (by norm_num : (0 : ℝ) ≤ 2)]

lemma tri_a_Vc1 : tri_a Vc1 Fc1 0 = 0 := by
  simp [tri_a, norm3, sub3, vrow, Vc1, Fc1]

/-- C1: at the failing input (one triangle whose three corners coincide,
skipped by the zero-edge guard) get_metrics_per_tri leaves the whole
output row at 0 — in particular the max_angle column holds 0, not the
documented fill value 180, because the source fills matrix row index 1
(the value of the column enumerator max_angle) instead of the max_angle
column. -/
theorem C1_per_tri_guard_row_bug :
    ∃ M, get_metrics_per_tri Vc1 Fc1 = Except.ok M ∧
      zeroEdgeTri Vc1 Fc1 0 ∧
      M 0 0 = 0 ∧ M 0 1 = 0 ∧ M 0 2 = 0 ∧ M 0 3 = 0 ∧ M 0 1 ≠ 180 := by
  have hz : zeroEdgeTri Vc1 Fc1 0 := Or.inl tri_a_Vc1
  refine ⟨per_tri_init, ?_, hz, by norm_num [per_tri_init], by norm_num [per_tri_init],
    by norm_num [per_tri_init], by norm_num [per_tri_init], by norm_num [per_tri_init]⟩
  have hcols : ¬ (Fc1.cols ≠ 3) := by norm_num [Fc1]
  rw [get_metrics_per_tri, if_neg hcols]
  have hr : List.range Fc1.rows = [0] := rfl
  rw [hr]
  simp [per_tri_step, hz]

/-! Branch lemmas for the aggregate loop body and flag preservation. -/

lemma metrics_step_of_zero_edge (V : MatrixXd) (F : MatrixXi) (i : ℕ) (m : Metrics)
    (hz : zeroEdgeTri V F i) :
    metrics_step V F m i = { m with has_zero_edge := 1 } := by
  simp [metrics_step, hz]

lemma metrics_step_of_zero_area (V : MatrixXd) (F : MatrixXi) (i : ℕ) (m : Metrics)
    (he : ¬ zeroEdgeTri V F i) (ha : zeroAreaTri V F i) :
    metrics_step V F m i =
      { m with
        min_min_angle := min m.min_min_angle (tri_min_angle V F i)
        max_min_angle := max m.max_min_angle (tri_min_angle V F i)
        avg_min_angle := m.avg_min_angle + tri_min_angle V F i
        min_max_angle := min m.min_max_angle (tri_max_angle V F i)
        max_max_angle := max m.max_max_angle (tri_max_angle V F i)
        avg_max_angle := m.avg_max_angle + tri_max_angle V F i
        has_zero_area := 1 } := by
  simp [metrics_step, he, ha]

lemma metrics_step_of_contrib (V : MatrixXd) (F : MatrixXi) (i : ℕ) (m : Metrics)
    (he : ¬ zeroEdgeTri V F i) (ha : ¬ zeroAreaTri V F i) :
    metrics_step V F m i =
      { m with
        min_min_angle := min m.min_min_angle (tri_min_angle V F i)
        max_min_angle := max m.max_min_angle (tri_min_angle V F i)
        avg_min_angle := m.avg_min_angle + tri_min_angle V F i
        min_max_angle := min m.min_max_angle (tri_max_angle V F i)
        max_max_angle := max m.max_max_angle (tri_max_angle V F i)
        avg_max_angle := m.avg_max_angle + tri_max_angle V F i
        min_ratio := min m.min_ratio (tri_ratio V F i)
        max_ratio := max m.max_ratio (tri_ratio V F i)
        avg_ratio := m.avg_ratio + tri_ratio V F i
        min_shape := min m.min_shape (tri_shape V F i)
        max_shape := max m.max_shape (tri_shape V F i)
        avg_shape := m.avg_shape + tri_shape V F i
        min_edge := min m.min_edge (min (tri_a V F i) (min (tri_b V F i) (tri_c V F i)))
        max_edge := max m.max_edge (max (tri_a V F i) (max (tri_b V F i) (tri_c V F i)))
        avg_edge := m.avg_edge + (tri_a V F i + tri_b V F i + tri_c V F i) } := by
  simp [metrics_step, he, ha]

lemma step_preserves_hze_one (V : MatrixXd) (F : MatrixXi) (i : ℕ) (m : Metrics)
    (h : m.has_zero_edge = 1) : (metrics_step V F m i).has_zero_edge = 1 := by
  unfold metrics_step
  split_ifs <;> simp [h]

lemma step_preserves_hza_one (V : MatrixXd) (F : MatrixXi) (i : ℕ) (m : Metrics)
    (h : m.has_zero_area = 1) : (metrics_step V F m i).has_zero_area = 1 := by
  unfold metrics_step
  split_ifs <;> simp [h]

lemma step_keeps_hza (V : MatrixXd) (F : MatrixXi) (i : ℕ) (m : Metrics)
    (h : zeroEdgeTri V F i ∨ ¬ zeroAreaTri V F i) :
    (metrics_step V F m i).has_zero_area = m.has_zero_area := by
  unfold metrics_step
  split_ifs with he ha
  · rfl
  · rcases h with h | h
    · exact absurd h he
    · exact absurd ha h
  · rfl

lemma foldl_hze_one (V : MatrixXd) (F : MatrixXi) (l : List ℕ) :
    ∀ m : Metrics, m.has_zero_edge = 1 →
      (l.foldl (metrics_step V F) m).has_zero_edge = 1 := by
  induction l with
  | nil => exact fun m h => h
  | cons j t ih => exact fun m h => ih _ (step_preserves_hze_one V F j m h)

lemma foldl_hze_of_mem (V : MatrixXd) (F : MatrixXi) (l : List ℕ) :
    ∀ m : Metrics, ∀ i ∈ l, zeroEdgeTri V F i →
      (l.foldl (metrics_step V F) m).has_zero_edge = 1 := by
  induction l with
  | nil => intro m i hi; cases hi
  | cons j t ih =>
    intro m i hi hz
    rcases List.mem_cons.mp hi with h | h
    · subst h
      rw [List.foldl_cons]
      apply foldl_hze_one
      rw [metrics_step_of_zero_edge V F i m hz]
    · exact ih _ i h hz

lemma foldl_hza_one (V : MatrixXd) (F : MatrixXi) (l : List ℕ) :
    ∀ m : Metrics, m.has_zero_area = 1 →
      (l.foldl (metrics_step V F) m).has_zero_area = 1 := by
  induction l with
  | nil => exact fun m h => h
  | cons j t ih => exact fun m h => ih _ (step_preserves_hza_one V F j m h)

lemma foldl_hza_of_mem (V : MatrixXd) (F : MatrixXi) (l : List ℕ) :
    ∀ m : Metrics, ∀ i ∈ l, ¬ zeroEdgeTri V F i → zeroAreaTri V F i →
      (l.foldl (metrics_step V F) m).has_zero_area = 1 := by
  induction l with
  | nil => intro m i hi; cases hi
  | cons j t ih =>
    intro m i hi he ha
    rcases List.mem_cons.mp hi with h | h
    · subst h
      rw [List.foldl_cons]
      apply foldl_hza_one
      rw [metrics_step_of_zero_area V F i m he ha]
    · exact ih _ i h he ha

lemma foldl_hza_keeps (V : MatrixXd) (F : MatrixXi) (l : List ℕ) :
    ∀ m : Metrics, (∀ i ∈ l, zeroEdgeTri V F i ∨ ¬ zeroAreaTri V F i) →
      (l.foldl (metrics_step V F) m).has_zero_area = m.has_zero_area := by
  induction l with
  | nil => exact fun m _ => rfl
  | cons j t ih =>
    intro m h
    rw [List.foldl_cons, ih _ (fun i hi => h i (List.mem_cons_of_mem j hi)),
      step_keeps_hza V F j m (h j (List.mem_cons_self j t))]

lemma finalize_hze (V : MatrixXd) (F : MatrixXi) (m : Metrics) :
    (metrics_finalize V F m).has_zero_edge = m.has_zero_edge := rfl

lemma finalize_hza (V : MatrixXd) (F : MatrixXi) (m : Metrics) :
    (metrics_finalize V F m).has_zero_area = m.has_zero_area := rfl

lemma get_metrics_ok_elim {V : MatrixXd} {F : MatrixXi} {r : Metrics}
    (hr : get_metrics V F = Except.ok r) : r = get_metrics_val V F := by
  unfold get_metrics at hr
  split at hr
  · cases hr
  · cases hr; rfl

/-- C4: a triangle with a zero-length edge sets has_zero_edge = 1 for
the whole mesh and its loop iteration changes nothing else — it is
excluded from every angle, ratio, shape and edge-length reduction. -/
theorem C4_zero_edge_triangle (V : MatrixXd) (F : MatrixXi) (i : ℕ)
    (hi : i < F.rows) (hz : zeroEdgeTri V F i) :
    (∀ m : Metrics, metrics_step V F m i = { m with has_zero_edge := 1 }) ∧
    (∀ r : Metrics, get_metrics V F = Except.ok r → r.has_zero_edge = 1) := by
  refine ⟨fun m => metrics_step_of_zero_edge V F i m hz, fun r hr => ?_⟩
  rw [get_metrics_ok_elim hr]
  unfold get_metrics_val
  rw [if_neg (by omega : ¬ F.rows = 0), finalize_hze]
  exact foldl_hze_of_mem V F (List.range F.rows) _ i (List.mem_range.mpr hi) hz

lemma tri_a_Vc3 : tri_a Vc3 Fc3 0 = 0 := by
  simp [tri_a, norm3, sub3, vrow, Vc3, Fc3]

/-- Witness for C4 at a concrete mesh with one coincident-corner triangle. -/
theorem C4_zero_edge_triangle_witness :
    (0 : ℕ) < Fc3.rows ∧ (get_metrics_val Vc3 Fc3).has_zero_edge = 1 :=
  ⟨by norm_num [Fc3],
    (C4_zero_edge_triangle Vc3 Fc3 0 (by norm_num [Fc3]) (Or.inl tri_a_Vc3)).2 _ rfl⟩

/-- C10: a triangle skipped by the zero-edge guard never reaches the
area check, so a mesh whose only degenerate triangles have a
zero-length edge reports has_zero_edge = 1 together with
has_zero_area = 0. -/
theorem C10_zero_edge_skips_area_flag (V : MatrixXd) (F : MatrixXi)
    (h1 : ∃ i, i < F.rows ∧ zeroEdgeTri V F i)
    (h2 : ∀ i, i < F.rows → zeroEdgeTri V F i ∨ ¬ zeroAreaTri V F i) :
    ∀ r : Metrics, get_metrics V F = Except.ok r →
      r.has_zero_edge = 1 ∧ r.has_zero_area = 0 := by
  obtain ⟨i, hi, hz⟩ := h1
  intro r hr
  rw [get_metrics_ok_elim hr]
  unfold get_metrics_val
  rw [if_neg (by omega : ¬ F.rows = 0)]
  constructor
  · rw [finalize_hze]
    exact foldl_hze_of_mem V F (List.range F.rows) _ i (List.mem_range.mpr hi) hz
  · rw [finalize_hza]
    exact foldl_hza_keeps V F (List.range F.rows) _
      (fun j hj => h2 j (List.mem_range.mp hj))

/-- Witness for C10 at the same concrete mesh. -/
theorem C10_zero_edge_skips_area_flag_witness :
    (get_metrics_val Vc3 Fc3).has_zero_edge = 1 ∧
    (get_metrics_val Vc3 Fc3).has_zero_area = 0 := by
  have h2 : ∀ i, i < Fc3.rows → zeroEdgeTri Vc3 Fc3 i ∨ ¬ zeroAreaTri Vc3 Fc3 i := by
    intro i hi
    have hr : Fc3.rows = 1 := rfl
    have : i = 0 := by omega
    subst this
    exact Or.inl (Or.inl tri_a_Vc3)
  exact C10_zero_edge_skips_area_flag Vc3 Fc3
    ⟨0, by norm_num [Fc3], Or.inl tri_a_Vc3⟩ h2 _ rfl

/-- C5: a triangle with nonzero edges but zero Heron area sets
has_zero_area = 1; its loop iteration folds its min and max angles into
all six angle reductions and changes nothing else — it is excluded from
the ratio, shape and edge-length reductions. -/
theorem C5_zero_area_triangle (V : MatrixXd) (F : MatrixXi) (i : ℕ)
    (hi : i < F.rows) (he : ¬ zeroEdgeTri V F i) (ha : zeroAreaTri V F i) :
    (∀ m : Metrics, metrics_step V F m i =
      { m with
        min_min_angle := min m.min_min_angle (tri_min_angle V F i)
        max_min_angle := max m.max_min_angle (tri_min_angle V F i)
        avg_min_angle := m.avg_min_angle + tri_min_angle V F i
        min_max_angle := min m.min_max_angle (tri_max_angle V F i)
        max_max_angle := max m.max_max_angle (tri_max_angle V F i)
        avg_max_angle := m.avg_max_angle + tri_max_angle V F i
        has_zero_area := 1 }) ∧
    (∀ r : Metrics, get_metrics V F = Except.ok r → r.has_zero_area = 1) := by
  refine ⟨fun m => metrics_step_of_zero_area V F i m he ha, fun r hr => ?_⟩
  rw [get_metrics_ok_elim hr]
  unfold get_metrics_val
  rw [if_neg (by omega : ¬ F.rows = 0), finalize_hza]
  exact foldl_hza_of_mem V F (List.range F.rows) _ i (List.mem_range.mpr hi) he ha

lemma tri_a_Vc2 : tri_a Vc2 Fc2 0 = 1 := by
  simp [tri_a, norm3, sub3, vrow, Vc2, Fc2]

lemma tri_b_Vc2 : tri_b Vc2 Fc2 0 = 1 := by
  simp only [tri_b, norm3, sub3, vrow, Vc2, Fc2]
  norm_num [Real.sqrt_one]

lemma tri_c_Vc2 : tri_c Vc2 Fc2 0 = 2 := by
  have h : (0 : ℝ) - ((2 : ℕ) : ℝ) = -2 := by norm_num
  have h4 : (-2 : ℝ) * -2 + (0 - 0) * (0 - 0) + (0 - 0) * (0 - 0) = 4 := by norm_num
  simp only [tri_c, norm3, sub3, vrow, Vc2, Fc2]
  norm_num [sqrt_four]

lemma not_zero_edge_Vc2 : ¬ zeroEdgeTri Vc2 Fc2 0 := by
  simp [zeroEdgeTri, tri_a_Vc2, tri_b_Vc2, tri_c_Vc2]

lemma tri_area_Vc2 : tri_area Vc2 Fc2 0 = 0 := by
  simp only [tri_area, tri_a_Vc2, tri_b_Vc2, tri_c_Vc2, heron_area, heron_clamped,
    heron_s]
  norm_num [min_eq_right dblMax_nonneg]

/-- Witness for C5 at a concrete collinear (zero-area, nonzero-edge)
triangle. -/
theorem C5_zero_area_triangle_witness :
    ¬ zeroEdgeTri Vc2 Fc2 0 ∧ tri_area Vc2 Fc2 0 = 0 ∧
    (get_metrics_val Vc2 Fc2).has_zero_area = 1 :=
  ⟨not_zero_edge_Vc2, tri_area_Vc2,
    (C5_zero_area_triangle Vc2 Fc2 0 (by norm_num [Fc2]) not_zero_edge_Vc2
      (Or.inl tri_area_Vc2)).2 _ rfl⟩

/-! Characterization of the mean accumulators as sums over triangles. -/

lemma loop_avgs (V : MatrixXd) (F : MatrixXi) : ∀ n : ℕ,
    (((List.range n).foldl (metrics_step V F) (metrics_init V F)).avg_min_angle =
      ∑ i ∈ Finset.range n, if zeroEdgeTri V F i then 0 else tri_min_angle V F i) ∧
    (((List.range n).foldl (metrics_step V F) (metrics_init V F)).avg_max_angle =
      ∑ i ∈ Finset.range n, if zeroEdgeTri V F i then 0 else tri_max_angle V F i) ∧
    (((List.range n).foldl (metrics_step V F) (metrics_init V F)).avg_ratio =
      ∑ i ∈ Finset.range n, if contributesTri V F i then tri_ratio V F i else 0) ∧
    (((List.range n).foldl (metrics_step V F) (metrics_init V F)).avg_shape =
      ∑ i ∈ Finset.range n, if contributesTri V F i then tri_shape V F i else 0) ∧
    (((List.range n).foldl (metrics_step V F) (metrics_init V F)).avg_edge =
      ∑ i ∈ Finset.range n, if contributesTri V F i then
        tri_a V F i + tri_b V F i + tri_c V F i else 0) := by
  intro n
  induction n with
  | zero => simp [metrics_init]
  | succ n ih =>
    rw [List.range_succ, List.foldl_append, List.foldl_cons, List.foldl_nil]
    rcases Classical.em (zeroEdgeTri V F n) with he | he
    · rw [metrics_step_of_zero_edge V F n _ he]
      refine ⟨?_, ?_, ?_, ?_, ?_⟩ <;>
        simp [Finset.sum_range_succ, he, contributesTri, ih.1, ih.2.1, ih.2.2.1,
          ih.2.2.2.1, ih.2.2.2.2]
    · rcases Classical.em (zeroAreaTri V F n) with ha | ha
      · rw [metrics_step_of_zero_area V F n _ he ha]
        refine ⟨?_, ?_, ?_, ?_, ?_⟩ <;>
          simp [Finset.sum_range_succ, he, ha, contributesTri, ih.1, ih.2.1, ih.2.2.1,
            ih.2.2.2.1, ih.2.2.2.2]
      · rw [metrics_step_of_contrib V F n _ he ha]
        refine ⟨?_, ?_, ?_, ?_, ?_⟩ <;>
          simp [Finset.sum_range_succ, he, ha, contributesTri, ih.1, ih.2.1, ih.2.2.1,
            ih.2.2.2.1, ih.2.2.2.2]

lemma finalize_avg_min_angle (V : MatrixXd) (F : MatrixXi) (m : Metrics) :
    (metrics_finalize V F m).avg_min_angle = m.avg_min_angle / (F.rows : ℝ) := rfl

lemma finalize_avg_max_angle (V : MatrixXd) (F : MatrixXi) (m : Metrics) :
    (metrics_finalize V F m).avg_max_angle = m.avg_max_angle / (F.rows : ℝ) := rfl

lemma finalize_avg_ratio (V : MatrixXd) (F : MatrixXi) (m : Metrics) :
    (metrics_finalize V F m).avg_ratio = m.avg_ratio / (F.rows : ℝ) := rfl

lemma finalize_avg_shape (V : MatrixXd) (F : MatrixXi) (m : Metrics) :
    (metrics_finalize V F m).avg_shape = m.avg_shape / (F.rows : ℝ) := rfl

lemma finalize_avg_edge (V : MatrixXd) (F : MatrixXi) (m : Metrics) :
    (metrics_finalize V F m).avg_edge =
      m.avg_edge / ((F.rows * 3 : ℕ) : ℝ) / bbox_diag V := rfl

lemma finalize_min_edge (V : MatrixXd) (F : MatrixXi) (m : Metrics) :
    (metrics_finalize V F m).min_edge = m.min_edge / bbox_diag V := rfl

lemma finalize_max_edge (V : MatrixXd) (F : MatrixXi) (m : Metrics) :
    (metrics_finalize V F m).max_edge = m.max_edge / bbox_diag V := rfl

/-- C6: after the loop, on a nonempty mesh, every mean field is its
accumulated sum (degenerate triangles contributing 0) divided by the
full triangle count (avg_edge by 3x the count), and the three edge
fields are additionally divided by the bounding-box diagonal, the norm
of the componentwise vertex max minus the componentwise vertex min. -/
theorem C6_normalization (V : MatrixXd) (F : MatrixXi) (h : 1 ≤ F.rows) :
    (get_metrics_val V F).avg_min_angle =
      (∑ i ∈ Finset.range F.rows,
        if zeroEdgeTri V F i then 0 else tri_min_angle V F i) / (F.rows : ℝ) ∧
    (get_metrics_val V F).avg_max_angle =
      (∑ i ∈ Finset.range F.rows,
        if zeroEdgeTri V F i then 0 else tri_max_angle V F i) / (F.rows : ℝ) ∧
    (get_metrics_val V F).avg_ratio =
      (∑ i ∈ Finset.range F.rows,
        if contributesTri V F i then tri_ratio V F i else 0) / (F.rows : ℝ) ∧
    (get_metrics_val V F).avg_shape =
      (∑ i ∈ Finset.range F.rows,
        if contributesTri V F i then tri_shape V F i else 0) / (F.rows : ℝ) ∧
    (get_metrics_val V F).avg_edge =
      (∑ i ∈ Finset.range F.rows,
        if contributesTri V F i then tri_a V F i + tri_b V F i + tri_c V F i
        else 0) / ((F.rows * 3 : ℕ) : ℝ) / bbox_diag V ∧
    (get_metrics_val V F).min_edge = (metrics_loop V F).min_edge / bbox_diag V ∧
    (get_metrics_val V F).max_edge = (metrics_loop V F).max_edge / bbox_diag V ∧
    bbox_diag V = norm3 (colMax V 0 - colMin V 0, colMax V 1 - colMin V 1,
      colMax V 2 - colMin V 2) := by
  unfold get_metrics_val
  rw [if_neg (by omega : ¬ F.rows = 0)]
  rw [finalize_avg_min_angle, finalize_avg_max_angle, finalize_avg_ratio,
    finalize_avg_shape, finalize_avg_edge, finalize_min_edge, finalize_max_edge]
  unfold metrics_loop
  have hl := loop_avgs V F F.rows
  rw [hl.1, hl.2.1, hl.2.2.1, hl.2.2.2.1, hl.2.2.2.2]
  exact ⟨rfl, rfl, rfl, rfl, rfl, rfl, rfl, rfl⟩

/-- Witness for C6 at a concrete one-triangle mesh. -/
theorem C6_normalization_witness :
    1 ≤ Fc2.rows ∧
    (get_metrics_val Vc2 Fc2).min_edge = (metrics_loop Vc2 Fc2).min_edge / bbox_diag Vc2 :=
  ⟨by norm_num [Fc2], (C6_normalization Vc2 Fc2 (by norm_num [Fc2])).2.2.2.2.2.1⟩

/-- C7: get_relative_edge_lengths returns one scalar per unique
undirected edge of the triangle table (the edge list is
duplicate-free and holds exactly the edges of the triangles), each
scalar being the distance between the edge endpoints divided by the
bounding-box diagonal. -/
theorem C7_unique_edges (V : MatrixXd) (F : MatrixXi) (hc : F.cols = 3) :
    get_relative_edge_lengths V F =
      Except.ok ((igl_edges F).map fun e =>
        norm3 (sub3 (vrow V e.2) (vrow V e.1)) / bbox_diag V) ∧
    (igl_edges F).Nodup ∧
    (∀ p : ℕ × ℕ, p ∈ igl_edges F ↔ ∃ i, i < F.rows ∧
      (p = sortPair (F.entry i 0) (F.entry i 1) ∨
       p = sortPair (F.entry i 1) (F.entry i 2) ∨
       p = sortPair (F.entry i 2) (F.entry i 0))) := by
  refine ⟨?_, List.nodup_dedup _, fun p => ?_⟩
  · simp [get_relative_edge_lengths, hc, one_div, div_eq_mul_inv]
  · simp [igl_edges, tri_edge_list, List.mem_dedup, List.mem_flatMap, List.mem_range]

/-- Witness for C7 at a concrete mesh. -/
theorem C7_unique_edges_witness :
    Fc2.cols = 3 ∧ (igl_edges Fc2).Nodup :=
  ⟨rfl, (C7_unique_edges Vc2 Fc2 rfl).2.1⟩

/-! Scaling lemmas for C8. -/

lemma foldl_min_init (a b : ℝ) (l : List ℝ) :
    ∀ x y : ℝ, l.foldl min (min x y) = min x (l.foldl min y) := by
  induction l with
  | nil => intro x y; rfl
  | cons h t ih =>
    intro x y
    rw [List.foldl_cons, List.foldl_cons, min_assoc, ih]

lemma foldl_min_map_mul (k : ℝ) (hk : 0 ≤ k) (l : List ℝ) :
    ∀ a : ℝ, (l.map fun x => k * x).foldl min (k * a) = k * l.foldl min a := by
  induction l with
  | nil => intro a; rfl
  | cons h t ih =>
    intro a
    rw [List.map_cons, List.foldl_cons, List.foldl_cons,
      ← mul_min_of_nonneg a h hk, ih]

lemma foldl_max_map_mul (k : ℝ) (hk : 0 ≤ k) (l : List ℝ) :
    ∀ a : ℝ, (l.map fun x => k * x).foldl max (k * a) = k * l.foldl max a := by
  induction l with
  | nil => intro a; rfl
  | cons h t ih =>
    intro a
    rw [List.map_cons, List.foldl_cons, List.foldl_cons,
      ← mul_max_of_nonneg a h hk, ih]

lemma sum_map_mul (k : ℝ) (l : List ℝ) : (l.map fun x => k * x).sum = k * l.sum := by
  induction l with
  | nil => simp
  | cons h t ih => simp [ih]; ring

lemma foldl_max_entry_mul (k : ℝ) (hk : 0 ≤ k) (g : ℕ → ℝ) (l : List ℕ) :
    ∀ a : ℝ, l.foldl (fun acc i => max acc (k * g i)) (k * a) =
      k * l.foldl (fun acc i => max acc (g i)) a := by
  induction l with
  | nil => intro a; rfl
  | cons h t ih =>
    intro a
    rw [List.foldl_cons, List.foldl_cons, ← mul_max_of_nonneg a (g h) hk, ih]

lemma foldl_min_entry_mul (k : ℝ) (hk : 0 ≤ k) (g : ℕ → ℝ) (l : List ℕ) :
    ∀ a : ℝ, l.foldl (fun acc i => min acc (k * g i)) (k * a) =
      k * l.foldl (fun acc i => min acc (g i)) a := by
  induction l with
  | nil => intro a; rfl
  | cons h t ih =>
    intro a
    rw [List.foldl_cons, List.foldl_cons, ← mul_min_of_nonneg a (g h) hk, ih]

lemma norm3_sub3_scale (k : ℝ) (hk : 0 ≤ k) (p q : ℝ × ℝ × ℝ) :
    norm3 (sub3 (k * p.1, k * p.2.1, k * p.2.2) (k * q.1, k * q.2.1, k * q.2.2)) =
      k * norm3 (sub3 p q) := by
  unfold norm3 sub3
  dsimp only
  rw [show (k * p.1 - k * q.1) * (k * p.1 - k * q.1) +
      (k * p.2.1 - k * q.2.1) * (k * p.2.1 - k * q.2.1) +
      (k * p.2.2 - k * q.2.2) * (k * p.2.2 - k * q.2.2) =
      k ^ 2 * ((p.1 - q.1) * (p.1 - q.1) + (p.2.1 - q.2.1) * (p.2.1 - q.2.1) +
        (p.2.2 - q.2.2) * (p.2.2 - q.2.2)) by ring,
    Real.sqrt_mul (sq_nonneg k), Real.sqrt_sq hk]

lemma tri_a_scale (k : ℝ) (hk : 0 ≤ k) (V : MatrixXd) (F : MatrixXi) (i : ℕ) :
    tri_a (scaleV k V) F i = k * tri_a V F i :=
  norm3_sub3_scale k hk (vrow V (F.entry i 1)) (vrow V (F.entry i 0))

lemma tri_b_scale (k : ℝ) (hk : 0 ≤ k) (V : MatrixXd) (F : MatrixXi) (i : ℕ) :
    tri_b (scaleV k V) F i = k * tri_b V F i :=
  norm3_sub3_scale k hk (vrow V (F.entry i 2)) (vrow V (F.entry i 1))

lemma tri_c_scale (k : ℝ) (hk : 0 ≤ k) (V : MatrixXd) (F : MatrixXi) (i : ℕ) :
    tri_c (scaleV k V) F i = k * tri_c V F i :=
  norm3_sub3_scale k hk (vrow V (F.entry i 0)) (vrow V (F.entry i 2))

lemma colMax_scale (k : ℝ) (hk : 0 ≤ k) (V : MatrixXd) (j : ℕ) :
    colMax (scaleV k V) j = k * colMax V j :=
  foldl_max_entry_mul k hk (fun i => V.entry i j) (List.range V.rows) (V.entry 0 j)

lemma colMin_scale (k : ℝ) (hk : 0 ≤ k) (V : MatrixXd) (j : ℕ) :
    colMin (scaleV k V) j = k * colMin V j :=
  foldl_min_entry_mul k hk (fun i => V.entry i j) (List.range V.rows) (V.entry 0 j)

lemma bbox_diag_scale (k : ℝ) (hk : 0 ≤ k) (V : MatrixXd) :
    bbox_diag (scaleV k V) = k * bbox_diag V := by
  unfold bbox_diag
  rw [colMax_scale k hk, colMax_scale k hk, colMax_scale k hk,
    colMin_scale k hk, colMin_scale k hk, colMin_scale k hk]
  have h := norm3_sub3_scale k hk
    (colMax V 0, colMax V 1, colMax V 2) (colMin V 0, colMin V 1, colMin V 2)
  simpa [sub3] using h

lemma zeroEdge_scale (k : ℝ) (hk : 0 < k) (V : MatrixXd) (F : MatrixXi) (i : ℕ) :
    zeroEdgeTri (scaleV k V) F i ↔ zeroEdgeTri V F i := by
  unfold zeroEdgeTri
  rw [tri_a_scale k hk.le, tri_b_scale k hk.le, tri_c_scale k hk.le]
  simp [mul_eq_zero, hk.ne']

lemma tri_s_scale (k : ℝ) (hk : 0 ≤ k) (V : MatrixXd) (F : MatrixXi) (i : ℕ) :
    tri_s (scaleV k V) F i = k * tri_s V F i := by
  unfold tri_s heron_s
  rw [tri_a_scale k hk, tri_b_scale k hk, tri_c_scale k hk]
  ring

lemma heron_clamped_nonpos_iff (a b c : ℝ) :
    heron_clamped a b c ≤ 0 ↔
      heron_s a b c * (heron_s a b c - a) * (heron_s a b c - b) *
        (heron_s a b c - c) ≤ 0 := by
  unfold heron_clamped
  constructor
  · intro h
    rcases min_le_iff.mp h with h | h
    · exact absurd h (not_le.mpr dblMax_pos)
    · exact (max_le_iff.mp h).2
  · intro h
    rw [max_eq_left h]
    exact min_le_right _ _

lemma zeroArea_scale (k : ℝ) (hk : 0 < k) (V : MatrixXd) (F : MatrixXi) (i : ℕ) :
    zeroAreaTri (scaleV k V) F i ↔ zeroAreaTri V F i := by
  have harea : ∀ x y z : ℝ, heron_area x y z = 0 ↔ heron_clamped x y z ≤ 0 :=
    fun x y z => Real.sqrt_eq_zero'
  have hprod : heron_s (k * tri_a V F i) (k * tri_b V F i) (k * tri_c V F i) *
      (heron_s (k * tri_a V F i) (k * tri_b V F i) (k * tri_c V F i) - k * tri_a V F i) *
      (heron_s (k * tri_a V F i) (k * tri_b V F i) (k * tri_c V F i) - k * tri_b V F i) *
      (heron_s (k * tri_a V F i) (k * tri_b V F i) (k * tri_c V F i) - k * tri_c V F i) =
      k ^ 4 * (heron_s (tri_a V F i) (tri_b V F i) (tri_c V F i) *
        (heron_s (tri_a V F i) (tri_b V F i) (tri_c V F i) - tri_a V F i) *
        (heron_s (tri_a V F i) (tri_b V F i) (tri_c V F i) - tri_b V F i) *
        (heron_s (tri_a V F i) (tri_b V F i) (tri_c V F i) - tri_c V F i)) := by
    unfold heron_s; ring
  have hk4 : (0 : ℝ) < k ^ 4 := by positivity
  unfold zeroAreaTri tri_area tri_s
  rw [tri_a_scale k hk.le, tri_b_scale k hk.le, tri_c_scale k hk.le,
    harea, harea, heron_clamped_nonpos_iff, heron_clamped_nonpos_iff, hprod]
  constructor
  · rintro (h | h)
    · exact Or.inl (by nlinarith)
    · exact Or.inr (by
        unfold heron_s at h ⊢
        have : k * ((tri_a V F i + tri_b V F i + tri_c V F i) * 0.5) = 0 := by
          rw [← h]; ring
        rcases mul_eq_zero.mp this with h' | h'
        · exact absurd h' hk.ne'
        · exact h')
  · rintro (h | h)
    · exact Or.inl (by nlinarith)
    · exact Or.inr (by
        unfold heron_s at h ⊢
        rw [show (k * tri_a V F i + k * tri_b V F i + k * tri_c V F i) * 0.5 =
          k * ((tri_a V F i + tri_b V F i + tri_c V F i) * 0.5) by ring, h, mul_zero])

lemma contributes_scale (k : ℝ) (hk : 0 < k) (V : MatrixXd) (F : MatrixXi) (i : ℕ) :
    contributesTri (scaleV k V) F i ↔ contributesTri V F i := by
  unfold contributesTri
  rw [zeroEdge_scale k hk, zeroArea_scale k hk]

lemma contribEdges_scale (k : ℝ) (hk : 0 < k) (V : MatrixXd) (F : MatrixXi) :
    contribEdges (scaleV k V) F = (contribEdges V F).map fun x => k * x := by
  unfold contribEdges
  rw [List.map_flatMap]
  congr 1
  funext i
  by_cases hc : contributesTri V F i
  · rw [if_pos hc, if_pos ((contributes_scale k hk V F i).mpr hc)]
    simp [tri_a_scale k hk.le, tri_b_scale k hk.le, tri_c_scale k hk.le]
  · rw [if_neg hc, if_neg (fun h => hc ((contributes_scale k hk V F i).mp h))]
    simp

lemma loop_edge_fields (V : MatrixXd) (F : MatrixXi) : ∀ n : ℕ,
    (((List.range n).foldl (metrics_step V F) (metrics_init V F)).min_edge =
      (((List.range n).flatMap fun i => if contributesTri V F i then
        [tri_a V F i, tri_b V F i, tri_c V F i] else []).foldl min dblMax)) ∧
    (((List.range n).foldl (metrics_step V F) (metrics_init V F)).max_edge =
      (((List.range n).flatMap fun i => if contributesTri V F i then
        [tri_a V F i, tri_b V F i, tri_c V F i] else []).foldl max 0)) ∧
    (((List.range n).foldl (metrics_step V F) (metrics_init V F)).avg_edge =
      (((List.range n).flatMap fun i => if contributesTri V F i then
        [tri_a V F i, tri_b V F i, tri_c V F i] else []).sum)) := by
  intro n
  induction n with
  | zero => simp [metrics_init]
  | succ n ih =>
    rw [List.range_succ, List.foldl_append, List.foldl_cons, List.foldl_nil,
      List.flatMap_append]
    rcases Classical.em (zeroEdgeTri V F n) with he | he
    · have hnc : ¬ contributesTri V F n := fun h => h.1 he
      rw [metrics_step_of_zero_edge V F n _ he]
      refine ⟨?_, ?_, ?_⟩ <;>
        simp [hnc, ih.1, ih.2.1, ih.2.2]
    · rcases Classical.em (zeroAreaTri V F n) with ha | ha
      · have hnc : ¬ contributesTri V F n := fun h => h.2 ha
        rw [metrics_step_of_zero_area V F n _ he ha]
        refine ⟨?_, ?_, ?_⟩ <;>
          simp [hnc, ih.1, ih.2.1, ih.2.2]
      · have hc : contributesTri V F n := ⟨he, ha⟩
        rw [metrics_step_of_contrib V F n _ he ha]
        refine ⟨?_, ?_, ?_⟩
        · simp only [hc, if_true, List.flatMap_cons, List.flatMap_nil,
            List.append_nil, List.foldl_append, List.foldl_cons, List.foldl_nil, ih.1]
          rw [min_assoc, min_assoc]
        · simp only [hc, if_true, List.flatMap_cons, List.flatMap_nil,
            List.append_nil, List.foldl_append, List.foldl_cons, List.foldl_nil, ih.2.1]
          rw [max_assoc, max_assoc]
        · simp only [hc, if_true, List.flatMap_cons, List.flatMap_nil,
            List.append_nil, List.sum_append, List.sum_cons, List.sum_nil, ih.2.2]
          ring

lemma metrics_loop_min_edge (V : MatrixXd) (F : MatrixXi) :
    (metrics_loop V F).min_edge = minContribEdge V F :=
  (loop_edge_fields V F F.rows).1

lemma metrics_loop_max_edge (V : MatrixXd) (F : MatrixXi) :
    (metrics_loop V F).max_edge = (contribEdges V F).foldl max 0 :=
  (loop_edge_fields V F F.rows).2.1

lemma metrics_loop_avg_edge (V : MatrixXd) (F : MatrixXi) :
    (metrics_loop V F).avg_edge = (contribEdges V F).sum :=
  (loop_edge_fields V F F.rows).2.2

lemma foldl_min_dblMax_map (k : ℝ) (hk : 0 < k) (l : List ℝ)
    (h1 : l.foldl min dblMax < dblMax) (h2 : k * l.foldl min dblMax < dblMax) :
    (l.map fun x => k * x).foldl min dblMax = k * l.foldl min dblMax := by
  cases l with
  | nil => simp at h1
  | cons x xs =>
    have e1 : (x :: xs).foldl min dblMax = min dblMax (xs.foldl min x) := by
      rw [List.foldl_cons, foldl_min_init dblMax x xs]
    have e2 : ((x :: xs).map fun y => k * y).foldl min dblMax
        = min dblMax (k * xs.foldl min x) := by
      rw [List.map_cons, List.foldl_cons, foldl_min_init dblMax (k * x) (xs.map fun y => k * y),
        foldl_min_map_mul k hk.le xs x]
    rw [e1] at h1 h2
    have hMlt : xs.foldl min x < dblMax := by
      by_contra hge
      push_neg at hge
      rw [min_eq_left hge] at h1
      exact lt_irrefl _ h1
    rw [min_eq_right hMlt.le] at h2
    rw [e1, e2, min_eq_right hMlt.le, min_eq_right h2.le]

/-- C8 counterexample: the claim as stated fails.  For a mesh whose only
triangle is skipped by the zero-edge guard the min_edge accumulator
keeps its double-max initial value, which does not scale with the
vertices, while the bounding-box diagonal does — so min_edge changes
under a uniform scaling by 2. -/
theorem C8_scale_invariance_counterexample :
    (get_metrics_val (scaleV 2 Vc3) Fc3).min_edge ≠ (get_metrics_val Vc3 Fc3).min_edge := by
  have hz : zeroEdgeTri Vc3 Fc3 0 := Or.inl tri_a_Vc3
  have hz2 : zeroEdgeTri (scaleV 2 Vc3) Fc3 0 := (zeroEdge_scale 2 (by norm_num) Vc3 Fc3 0).mpr hz
  have hfold : ∀ W : MatrixXd, zeroEdgeTri W Fc3 0 →
      (List.range Fc3.rows).foldl (metrics_step W Fc3) (metrics_init W Fc3) =
        { metrics_init W Fc3 with has_zero_edge := 1 } := by
    intro W hW
    have hr : List.range Fc3.rows = [0] := rfl
    rw [hr, List.foldl_cons, List.foldl_nil, metrics_step_of_zero_edge W Fc3 0 _ hW]
  have hdiag : bbox_diag Vc3 = 1 := by
    have h0 : colMax Vc3 0 = 1 := by
      norm_num [colMax, Vc3, List.range_succ, max_def]
    have h0m : colMin Vc3 0 = 0 := by
      norm_num [colMin, Vc3, List.range_succ, min_def]
    have h1 : colMax Vc3 1 = 0 := by
      norm_num [colMax, Vc3, List.range_succ, max_def]
    have h1m : colMin Vc3 1 = 0 := by
      norm_num [colMin, Vc3, List.range_succ, min_def]
    have h2 : colMax Vc3 2 = 0 := by
      norm_num [colMax, Vc3, List.range_succ, max_def]
    have h2m : colMin Vc3 2 = 0 := by
      norm_num [colMin, Vc3, List.range_succ, min_def]
    simp [bbox_diag, h0, h0m, h1, h1m, h2, h2m, norm3, Real.sqrt_one]
  have hdiag2 : bbox_diag (scaleV 2 Vc3) = 2 := by
    rw [bbox_diag_scale 2 (by norm_num) Vc3, hdiag]; norm_num
  have hv1 : (get_metrics_val Vc3 Fc3).min_edge = dblMax := by
    unfold get_metrics_val
    rw [if_neg (by norm_num [Fc3] : ¬ Fc3.rows = 0), finalize_min_edge]
    unfold metrics_loop
    rw [hfold Vc3 hz]
    show dblMax / bbox_diag Vc3 = dblMax
    rw [hdiag, div_one]
  have hv2 : (get_metrics_val (scaleV 2 Vc3) Fc3).min_edge = dblMax / 2 := by
    unfold get_metrics_val
    rw [if_neg (by norm_num [Fc3] : ¬ Fc3.rows = 0), finalize_min_edge]
    unfold metrics_loop
    rw [hfold (scaleV 2 Vc3) hz2]
    show dblMax / bbox_diag (scaleV 2 Vc3) = dblMax / 2
    rw [hdiag2]
  rw [hv1, hv2]
  intro h
  have := dblMax_pos
  linarith

lemma scale_cancel (k n d : ℝ) (hk : k ≠ 0) : (k * n) * (1 / (k * d)) = n * (1 / d) := by
  rw [one_div, mul_inv k d, one_div]
  have h : k * n * (k⁻¹ * d⁻¹) = (k * k⁻¹) * (n * d⁻¹) := by ring
  rw [h, mul_inv_cancel₀ hk, one_mul]

/-- C8 amended: scaling every vertex by a positive k leaves every
relative edge length and the max_edge and avg_edge aggregates
unchanged; min_edge is also unchanged provided its accumulator
(the minimum contributing edge length) stays strictly below the
double-max initialization sentinel before and after scaling — without
that proviso min_edge is not scale-invariant, as the counterexample
shows. -/
theorem C8_scale_invariance_amended (V : MatrixXd) (F : MatrixXi) (k : ℝ)
    (hk : 0 < k) :
    get_relative_edge_lengths (scaleV k V) F = get_relative_edge_lengths V F ∧
    (get_metrics_val (scaleV k V) F).max_edge = (get_metrics_val V F).max_edge ∧
    (get_metrics_val (scaleV k V) F).avg_edge = (get_metrics_val V F).avg_edge ∧
    (minContribEdge V F < dblMax → k * minContribEdge V F < dblMax →
      (get_metrics_val (scaleV k V) F).min_edge = (get_metrics_val V F).min_edge) := by
  refine ⟨?_, ?_, ?_, ?_⟩
  · unfold get_relative_edge_lengths
    by_cases hc : F.cols = 3
    · rw [if_neg (by simp [hc]), if_neg (by simp [hc])]
      have hfun : (fun e : ℕ × ℕ =>
          norm3 (sub3 (vrow (scaleV k V) e.2) (vrow (scaleV k V) e.1)) *
            (1 / bbox_diag (scaleV k V))) =
          fun e : ℕ × ℕ =>
            norm3 (sub3 (vrow V e.2) (vrow V e.1)) * (1 / bbox_diag V) := by
        funext e
        rw [show norm3 (sub3 (vrow (scaleV k V) e.2) (vrow (scaleV k V) e.1)) =
            k * norm3 (sub3 (vrow V e.2) (vrow V e.1)) from
          norm3_sub3_scale k hk.le (vrow V e.2) (vrow V e.1),
          bbox_diag_scale k hk.le, scale_cancel _ _ _ hk.ne']
      rw [hfun]
    · simp [hc]
  · by_cases hr : F.rows = 0
    · unfold get_metrics_val
      rw [if_pos hr, if_pos hr]
      rfl
    · unfold get_metrics_val
      rw [if_neg hr, if_neg hr, finalize_max_edge, finalize_max_edge,
        metrics_loop_max_edge, metrics_loop_max_edge, contribEdges_scale k hk,
        bbox_diag_scale k hk.le]
      have hmax : ((contribEdges V F).map fun x => k * x).foldl max 0 =
          k * (contribEdges V F).foldl max 0 := by
        simpa using foldl_max_map_mul k hk.le (contribEdges V F) 0
      rw [hmax, mul_div_mul_left _ _ hk.ne']
  · by_cases hr : F.rows = 0
    · unfold get_metrics_val
      rw [if_pos hr, if_pos hr]
      rfl
    · unfold get_metrics_val
      rw [if_neg hr, if_neg hr, finalize_avg_edge, finalize_avg_edge,
        metrics_loop_avg_edge, metrics_loop_avg_edge, contribEdges_scale k hk,
        sum_map_mul k (contribEdges V F), bbox_diag_scale k hk.le,
        mul_div_assoc k ((contribEdges V F).sum) (((F.rows * 3 : ℕ) : ℝ)),
        mul_div_mul_left _ _ hk.ne']
  · intro h1 h2
    by_cases hr : F.rows = 0
    · unfold get_metrics_val
      rw [if_pos hr, if_pos hr]
      rfl
    · unfold get_metrics_val
      rw [if_neg hr, if_neg hr, finalize_min_edge, finalize_min_edge,
        metrics_loop_min_edge, metrics_loop_min_edge, bbox_diag_scale k hk.le]
      show (contribEdges (scaleV k V) F).foldl min dblMax / (k * bbox_diag V) =
        (contribEdges V F).foldl min dblMax / bbox_diag V
      rw [contribEdges_scale k hk, foldl_min_dblMax_map k hk _ h1 h2,
        mul_div_mul_left _ _ hk.ne']

/-- Witness for C3 at concrete 4-column and 3-column tables. -/
theorem C3_invalid_topology_iff_witness :
    get_metrics Vc1 Fc4 = Except.error MemeError.invalidTopology ∧
    (∃ m, get_metrics Vc1 Fc1 = Except.ok m) :=
  ⟨(C3_invalid_topology_iff Vc1 Fc4).1.mpr (by norm_num [Fc4]),
    (C3_invalid_topology_iff Vc1 Fc1).2.1.mpr rfl⟩

/-- Witness for the amended C8 at a concrete mesh and k = 2. -/
theorem C8_scale_invariance_amended_witness :
    (0 : ℝ) < 2 ∧
    get_relative_edge_lengths (scaleV 2 Vc2) Fc2 = get_relative_edge_lengths Vc2 Fc2 :=
  ⟨by norm_num, (C8_scale_invariance_amended Vc2 Fc2 2 (by norm_num)).1⟩
